import Mathlib

/-!
Verification of the `nonneg-float` library (`src/lib.rs`): a wrapper type
`NonNegative<T: Float>` guaranteeing at construction that the wrapped
floating-point value is non-negative and finite.

The floating-point type `T` is modelled abstractly: a float is NaN, an
infinity, a negative zero, or a finite value represented by a rational.
The only float operations the library uses are the IEEE-754 comparisons
(`>=`, `<`, `==` via the derived `PartialEq`/`PartialOrd`) and
`is_finite`, all of which are exact (no rounding is involved anywhere in
the library), so this model captures the code's behaviour faithfully,
including the sign of zero (`-0.0 >= 0.0` holds and `-0.0` is preserved
bit-for-bit by the wrapper, which never transforms the stored value).
-/

namespace NonnegFloat

/-- Model of an IEEE-754 floating-point value of the type parameter `T`.
`finite q` is a finite value of numeric value `q` (with `finite 0` the
positive zero); `negZero` is `-0.0`, a distinct bit pattern whose numeric
value is `0`. -/
inductive Flt where
  | nan : Flt
  | posInf : Flt
  | negInf : Flt
  | negZero : Flt
  | finite : ℚ → Flt
deriving DecidableEq

/-- Extended rationals: the value space of non-NaN floats under comparison. -/
abbrev XRat := WithBot (WithTop ℚ)

/-- The numeric value a float compares as: `none` for NaN (which compares
false with everything), `⊤`/`⊥` for the infinities, and the rational value
otherwise (`-0.0` compares as `0`). -/
def Flt.val? : Flt → Option XRat
  | .nan => none
  | .posInf => some ⊤
  | .negInf => some ⊥
  | .negZero => some 0
  | .finite q => some ((q : WithTop ℚ) : XRat)

/-- IEEE-754 `>=` (Rust `>=` on floats): false whenever an operand is NaN. -/
def Flt.bge (a b : Flt) : Bool :=
  match a.val?, b.val? with
  | some x, some y => decide (y ≤ x)
  | _, _ => false

/-- IEEE-754 `<` (Rust `<` on floats): false whenever an operand is NaN. -/
def Flt.blt (a b : Flt) : Bool :=
  match a.val?, b.val? with
  | some x, some y => decide (x < y)
  | _, _ => false

/-- IEEE-754 `==` (Rust `==` on floats): `-0.0 == 0.0` holds and NaN is
equal to nothing, itself included. -/
def Flt.beq (a b : Flt) : Bool :=
  match a.val?, b.val? with
  | some x, some y => decide (x = y)
  | _, _ => false

/-- Rust `f.is_finite()` (`num_traits::Float::is_finite`): true exactly for
the finite values, `-0.0` included. -/
def Flt.isFinite : Flt → Bool
  | .negZero => true
  | .finite _ => true
  | _ => false

/-- Rust `T::zero()` (`num_traits::Zero::zero`): positive zero. -/
def Flt.zero : Flt := .finite 0

/-- `NonNegativeError` from `src/lib.rs`: the single error kind. -/
inductive NonNegativeError where
  | invalidValue : NonNegativeError
deriving DecidableEq

/-- The `Display` text of `NonNegativeError::InvalidValue`
(`src/lib.rs`, `impl fmt::Display for NonNegativeError`). -/
def NonNegativeError.message : NonNegativeError → String
  | .invalidValue => "Value must be non-negative and finite"

/-- The newtype `NonNegative<T>(T)` from `src/lib.rs`. As in the source it
is a bare wrapper: the invariant is enforced by the constructors, not by
the type itself. -/
structure NonNegative where
  val : Flt
deriving DecidableEq

/-- Derived `PartialEq` on `NonNegative<T>`: compares the wrapped values
with float `==`. -/
def NonNegative.beq (a b : NonNegative) : Bool := Flt.beq a.val b.val

/-- Derived `PartialOrd` on `NonNegative<T>`: `<` compares the wrapped
values with float `<`. -/
def NonNegative.blt (a b : NonNegative) : Bool := Flt.blt a.val b.val

/-- `NonNegative::zero` from `src/lib.rs`: wraps `T::zero()`. -/
def NonNegative.zero : NonNegative := ⟨Flt.zero⟩

/-- `NonNegative::try_new` from `src/lib.rs`:
`if value >= T::zero() && value.is_finite() { Ok(Self(value)) } else { Err(InvalidValue) }`. -/
def NonNegative.try_new (value : Flt) : Except NonNegativeError NonNegative :=
  if Flt.bge value Flt.zero && value.isFinite then .ok ⟨value⟩
  else .error .invalidValue

/-- `NonNegative::new` from `src/lib.rs`:
`Self::try_new(value).expect("Value must be non-negative and finite")`.
`expect` aborts the program carrying the given diagnostic message; the
abort is modelled as an `Except.error` carrying that message. -/
def NonNegative.new (value : Flt) : Except String NonNegative :=
  match NonNegative.try_new value with
  | .ok a => .ok a
  | .error _ => .error "Value must be non-negative and finite"

/-- `NonNegative::get` from `src/lib.rs`: returns the inner float value. -/
def NonNegative.get (a : NonNegative) : Flt := a.val

/-- `impl Default for NonNegative<T>` from `src/lib.rs`: `Self::zero()`. -/
def NonNegative.default : NonNegative := NonNegative.zero

/-- The `nonneg!(value)` macro arm from `src/lib.rs`: expands to
`$crate::NonNegative::try_new($val)`. -/
def nonnegOfValue (v : Flt) : Except NonNegativeError NonNegative :=
  NonNegative.try_new v

/-- The `nonneg!(Type, value)` macro arm from `src/lib.rs`: expands to
`$crate::NonNegative::<$t>::try_new($val)` at the chosen representation
(the model is at one fixed representation, so the arm coincides with
`try_new`). -/
def nonnegOfTypeValue (v : Flt) : Except NonNegativeError NonNegative :=
  NonNegative.try_new v

/-- The `nonneg!(Type)` macro arm from `src/lib.rs`: expands to
`$crate::NonNegative::<$t>::zero()`. -/
def nonnegOfType : NonNegative := NonNegative.zero

/-- The serde-derived `Serialize` for the newtype struct `NonNegative<T>`
(`#[cfg_attr(feature = "serde", derive(Serialize, Deserialize))]` in
`src/lib.rs`): a derived newtype-struct `Serialize` encodes transparently,
so the encoded form is exactly the bare inner value. -/
def NonNegative.serialize (a : NonNegative) : Flt := a.val

/-- The serde-derived `Deserialize` for the newtype struct
`NonNegative<T>` (`src/lib.rs`): the derived impl decodes a value of the
inner type `T` and wraps it directly; it performs no validation of its
own, so any float the inner decode produces is accepted. -/
def NonNegative.deserialize (v : Flt) : Except NonNegativeError NonNegative :=
  .ok ⟨v⟩

/-- The invariant documented for `NonNegative` in `src/lib.rs` and the
spec: the wrapped value is `>= 0` (under IEEE comparison) and finite. -/
def NonNegative.invariantHolds (a : NonNegative) : Bool :=
  Flt.bge a.val Flt.zero && a.val.isFinite

end NonnegFloat

namespace NonnegFloat

/-- The validation condition of `try_new`, characterised by the shape of
the value: it holds exactly for `-0.0` and the finite values of
non-negative numeric value. -/
theorem valid_iff (x : Flt) :
    (Flt.bge x Flt.zero && x.isFinite) = true ↔
      (x = .negZero ∨ ∃ q : ℚ, 0 ≤ q ∧ x = .finite q) := by
  cases x with
  | nan => simp [Flt.bge, Flt.val?, Flt.isFinite]
  | posInf => simp [Flt.bge, Flt.val?, Flt.isFinite, Flt.zero]
  | negInf => simp [Flt.bge, Flt.val?, Flt.isFinite, Flt.zero]
  | negZero => simp [Flt.bge, Flt.val?, Flt.isFinite, Flt.zero]
  | finite q =>
      simp [Flt.bge, Flt.val?, Flt.isFinite, Flt.zero,
        WithBot.coe_le_coe, WithTop.coe_le_coe]

/-- `try_new` succeeds, wrapping its input unchanged, exactly when the
validation condition holds. -/
theorem try_new_ok_iff (x : Flt) :
    NonNegative.try_new x = .ok ⟨x⟩ ↔ (Flt.bge x Flt.zero && x.isFinite) = true := by
  unfold NonNegative.try_new
  by_cases h : (Flt.bge x Flt.zero && x.isFinite) = true <;> simp [h]

/-- `try_new` fails with `InvalidValue` exactly when the validation
condition fails. -/
theorem try_new_error_iff (x : Flt) :
    NonNegative.try_new x = .error .invalidValue ↔
      ¬(Flt.bge x Flt.zero && x.isFinite) = true := by
  unfold NonNegative.try_new
  by_cases h : (Flt.bge x Flt.zero && x.isFinite) = true <;> simp [h]

/-- Whenever `try_new` succeeds, it returns the input wrapped unchanged
and the validation condition held. -/
theorem try_new_ok_elim (x : Flt) (a : NonNegative)
    (h : NonNegative.try_new x = .ok a) :
    a = ⟨x⟩ ∧ (Flt.bge x Flt.zero && x.isFinite) = true := by
  unfold NonNegative.try_new at h
  by_cases hc : (Flt.bge x Flt.zero && x.isFinite) = true
  · rw [if_pos hc] at h
    injection h with h
    exact ⟨h.symm, hc⟩
  · rw [if_neg hc] at h
    simp at h

/-- A finite float compares as some extended rational. -/
theorem isFinite_val_isSome (x : Flt) (h : x.isFinite = true) :
    ∃ v : XRat, x.val? = some v := by
  cases x with
  | nan => simp [Flt.isFinite] at h
  | posInf => simp [Flt.isFinite] at h
  | negInf => simp [Flt.isFinite] at h
  | negZero => exact ⟨0, rfl⟩
  | finite q => exact ⟨((q : WithTop ℚ) : XRat), rfl⟩

end NonnegFloat

namespace NonnegFloat

/-- C1: for every float `x`, `try_new x` returns `Ok` wrapping `x` exactly
when `x >= 0` (under IEEE comparison, so `-0.0` qualifies) and `x` is
finite; otherwise it returns `Err InvalidValue`, the single error kind; in
particular it fails for every negative finite value, for NaN, and for both
infinities. -/
theorem C1_try_new_iff (x : Flt) :
    (NonNegative.try_new x = .ok ⟨x⟩ ↔
      (x = .negZero ∨ ∃ q : ℚ, 0 ≤ q ∧ x = .finite q)) ∧
    (NonNegative.try_new x = .error .invalidValue ↔
      ¬(x = .negZero ∨ ∃ q : ℚ, 0 ≤ q ∧ x = .finite q)) ∧
    (∀ q : ℚ, q < 0 → NonNegative.try_new (.finite q) = .error .invalidValue) ∧
    NonNegative.try_new .nan = .error .invalidValue ∧
    NonNegative.try_new .posInf = .error .invalidValue ∧
    NonNegative.try_new .negInf = .error .invalidValue := by
  refine ⟨(try_new_ok_iff x).trans (valid_iff x),
    (try_new_error_iff x).trans (not_congr (valid_iff x)), ?_, rfl, rfl, rfl⟩
  intro q hq
  refine (try_new_error_iff (.finite q)).mpr ?_
  rw [valid_iff]
  rintro (h | ⟨r, hr, h⟩)
  · cases h
  · cases h
    exact absurd hr (not_le.mpr hq)

/-- Witness for C1 at concrete inputs. -/
theorem C1_witness :
    NonNegative.try_new (.finite 5) = .ok ⟨.finite 5⟩ ∧
    NonNegative.try_new (.finite (-2)) = .error .invalidValue :=
  ⟨(C1_try_new_iff (.finite 5)).1.mpr (Or.inr ⟨5, by norm_num, rfl⟩),
    (C1_try_new_iff (.finite 5)).2.2.1 (-2) (by norm_num)⟩

/-- C2: the claim extends the invariant to the serde path, but the derived
`Deserialize` wraps the decoded value without validation: deserializing
the bare value `-1.0` succeeds and produces a live instance whose wrapped
value is negative, violating the invariant. -/
theorem C2_deserialize_breaks_invariant :
    NonNegative.deserialize (.finite (-1)) = .ok ⟨.finite (-1)⟩ ∧
    NonNegative.invariantHolds ⟨.finite (-1)⟩ = false :=
  ⟨rfl, rfl⟩

/-- C3: for every finite `x >= 0`, `try_new x` succeeds and `get` on the
result is exactly `x` (the same model value, so bit-for-bit: the wrapper
stores the input unchanged). -/
theorem C3_roundtrip_exact (x : Flt) (hge : Flt.bge x Flt.zero = true)
    (hfin : x.isFinite = true) :
    NonNegative.try_new x = .ok ⟨x⟩ ∧ NonNegative.get ⟨x⟩ = x :=
  ⟨(try_new_ok_iff x).mpr ((Bool.and_eq_true _ _).mpr ⟨hge, hfin⟩), rfl⟩

/-- Witness for C3 at a concrete input. -/
theorem C3_witness :
    NonNegative.try_new (.finite 2) = .ok ⟨.finite 2⟩ ∧
    NonNegative.get ⟨.finite 2⟩ = .finite 2 :=
  C3_roundtrip_exact (.finite 2) (by rfl) (by rfl)

/-- C4: `new x` aborts carrying the fixed diagnostic message exactly when
`x` is negative or non-finite, and on every valid `x` it returns the very
instance `try_new x` returns. -/
theorem C4_new_abort_iff (x : Flt) :
    (NonNegative.new x = .error "Value must be non-negative and finite" ↔
      ¬(x = .negZero ∨ ∃ q : ℚ, 0 ≤ q ∧ x = .finite q)) ∧
    (∀ a : NonNegative, NonNegative.try_new x = .ok a → NonNegative.new x = .ok a) := by
  constructor
  · rw [← valid_iff]
    by_cases hc : (Flt.bge x Flt.zero && x.isFinite) = true
    · have hok : NonNegative.try_new x = .ok ⟨x⟩ := (try_new_ok_iff x).mpr hc
      simp [NonNegative.new, hok, hc]
    · have herr : NonNegative.try_new x = .error .invalidValue :=
        (try_new_error_iff x).mpr hc
      simp [NonNegative.new, herr, hc]
  · intro a h
    simp [NonNegative.new, h]

/-- Witness for C4 at concrete inputs. -/
theorem C4_witness :
    NonNegative.new .nan = .error "Value must be non-negative and finite" ∧
    NonNegative.new (.finite 7) = .ok ⟨.finite 7⟩ :=
  ⟨(C4_new_abort_iff .nan).1.mpr (by simp),
    (C4_new_abort_iff (.finite 7)).2 ⟨.finite 7⟩ (by rfl)⟩

end NonnegFloat

namespace NonnegFloat

/-- C5: the encoded form is indeed the bare inner value, but the
serde-derived `Deserialize` does not re-run the `try_new` validation:
decoding NaN succeeds and yields an invariant-violating instance, where
`try_new` on the same value fails. -/
theorem C5_deserialize_no_revalidation :
    NonNegative.serialize ⟨.finite 2⟩ = .finite 2 ∧
    NonNegative.deserialize .nan = .ok ⟨.nan⟩ ∧
    NonNegative.try_new .nan = .error .invalidValue ∧
    NonNegative.invariantHolds ⟨.nan⟩ = false :=
  ⟨rfl, rfl, rfl, rfl⟩

/-- C6: both value-accepting arms of the construction macro are exactly
`try_new`: they hand the fallible result to the caller, and in particular
every validation failure of `try_new` is surfaced unchanged. -/
theorem C6_macro_value_arms (v : Flt) :
    nonnegOfValue v = NonNegative.try_new v ∧
    nonnegOfTypeValue v = NonNegative.try_new v ∧
    (NonNegative.try_new v = .error .invalidValue →
      nonnegOfValue v = .error .invalidValue ∧
      nonnegOfTypeValue v = .error .invalidValue) :=
  ⟨rfl, rfl, fun h => ⟨h, h⟩⟩

/-- Witness for C6 at a concrete input. -/
theorem C6_witness :
    nonnegOfValue (.finite (-3)) = .error .invalidValue ∧
    nonnegOfTypeValue (.finite (-3)) = .error .invalidValue :=
  (C6_macro_value_arms (.finite (-3))).2.2 (by rfl)

/-- C7: for every instance satisfying the invariant, re-validating its raw
form succeeds and reproduces the very same instance. -/
theorem C7_revalidate_idempotent (a : NonNegative)
    (h : a.invariantHolds = true) :
    NonNegative.try_new a.get = .ok a := by
  obtain ⟨x⟩ := a
  exact (try_new_ok_iff x).mpr h

/-- Witness for C7 at a concrete instance. -/
theorem C7_witness :
    NonNegative.try_new (NonNegative.get ⟨.finite 9⟩) = .ok ⟨.finite 9⟩ :=
  C7_revalidate_idempotent ⟨.finite 9⟩ (by rfl)

/-- C8: the derived comparisons on instances are exactly the float
comparisons of the wrapped values, and on invariant-satisfying instances
(no NaN can occur) the order is total: any two instances are related by
`<`, `==`, or `>`. -/
theorem C8_ordering_consistent (a b : NonNegative)
    (ha : a.invariantHolds = true) (hb : b.invariantHolds = true) :
    NonNegative.blt a b = Flt.blt a.get b.get ∧
    NonNegative.beq a b = Flt.beq a.get b.get ∧
    (NonNegative.blt a b = true ∨ NonNegative.beq a b = true ∨
      NonNegative.blt b a = true) := by
  refine ⟨rfl, rfl, ?_⟩
  simp only [NonNegative.invariantHolds, Bool.and_eq_true] at ha hb
  obtain ⟨u, hu⟩ := isFinite_val_isSome a.val ha.2
  obtain ⟨v, hv⟩ := isFinite_val_isSome b.val hb.2
  rcases lt_trichotomy u v with h | h | h
  · exact Or.inl (by simp [NonNegative.blt, Flt.blt, hu, hv, h])
  · exact Or.inr (Or.inl (by simp [NonNegative.beq, Flt.beq, hu, hv, h]))
  · exact Or.inr (Or.inr (by simp [NonNegative.blt, Flt.blt, hu, hv, h]))

/-- Witness for C8 at concrete instances. -/
theorem C8_witness :
    (NonNegative.blt ⟨Flt.negZero⟩ ⟨.finite 1⟩ =
      Flt.blt (NonNegative.get ⟨Flt.negZero⟩) (NonNegative.get ⟨.finite 1⟩)) ∧
    (NonNegative.beq ⟨Flt.negZero⟩ ⟨.finite 1⟩ =
      Flt.beq (NonNegative.get ⟨Flt.negZero⟩) (NonNegative.get ⟨.finite 1⟩)) ∧
    (NonNegative.blt ⟨Flt.negZero⟩ ⟨.finite 1⟩ = true ∨
      NonNegative.beq ⟨Flt.negZero⟩ ⟨.finite 1⟩ = true ∨
      NonNegative.blt ⟨.finite 1⟩ ⟨Flt.negZero⟩ = true) :=
  C8_ordering_consistent ⟨Flt.negZero⟩ ⟨.finite 1⟩ (by rfl) (by rfl)

/-- C9: `zero` wraps exactly the float zero (so `zero.get == 0` under
float equality), the default instance is `zero`, and the
representation-only macro arm is `zero`. -/
theorem C9_zero_default_macro :
    NonNegative.zero.get = Flt.zero ∧
    Flt.beq NonNegative.zero.get (.finite 0) = true ∧
    NonNegative.default = NonNegative.zero ∧
    nonnegOfType = NonNegative.zero :=
  ⟨rfl, rfl, rfl, rfl⟩

/-- C10: negative zero is accepted: `-0.0 >= 0.0` holds under IEEE
comparison, so `try_new` succeeds on it, `get` returns `-0.0` itself
(the sign bit is preserved), and `new` does not abort. -/
theorem C10_negative_zero_accepted :
    Flt.bge .negZero Flt.zero = true ∧
    NonNegative.try_new .negZero = .ok ⟨.negZero⟩ ∧
    NonNegative.get ⟨.negZero⟩ = .negZero ∧
    NonNegative.new .negZero = .ok ⟨.negZero⟩ :=
  ⟨rfl, rfl, rfl, rfl⟩

end NonnegFloat
